import Mathlib

/-
Verification of src/core/lib/promise/activity.h: the promise Activity
runtime (Wakeable, Waker, AtomicWaker, ScopedActivity, FreestandingActivity,
PromiseActivity).  Definitions shallowly embed the code; theorems settle the
specification claims about it.
-/

namespace GrpcCore

/-- Modelled from the spec: the promise contract (poll.h is not part of the
given sources).  A poll of a promise returns either Pending or Ready carrying
the promise result. -/
inductive Poll (R : Type) where
  | pending : Poll R
  | ready (x : R) : Poll R
deriving DecidableEq

/-- Modelled from the spec: the terminal outcome handed to the completion
callback is either the promise final converted value or a cancelled-error
status (absl CancelledError), as detail/status.h is not part of the given
sources. -/
inductive Outcome (R : Type) where
  | value (x : R) : Outcome R
  | cancelledError : Outcome R
deriving DecidableEq

/-- Modelled from the spec: IntoStatus converts the Ready poll payload to the
activity result type; here the payload is carried unchanged. -/
def IntoStatus {R : Type} (x : R) : Outcome R := Outcome.value x

/-- FreestandingActivity::ActionDuringRun: action received during a run, in
priority order; the underlying uint8 values are kNone = 0, kWakeup = 1,
kCancel = 2. -/
inductive ActionDuringRun where
  | kNone
  | kWakeup
  | kCancel
deriving DecidableEq

/-- Underlying uint8 value of the ActionDuringRun enumerator, which is what
the std::max call in SetActionDuringRun compares. -/
def ActionDuringRun.toNat : ActionDuringRun → Nat
  | ActionDuringRun.kNone => 0
  | ActionDuringRun.kWakeup => 1
  | ActionDuringRun.kCancel => 2

/-- std::max over ActionDuringRun, as used by SetActionDuringRun: the second
argument when the first compares less, otherwise the first. -/
def adrMax (a b : ActionDuringRun) : ActionDuringRun :=
  if a.toNat < b.toNat then b else a

/-- FreestandingActivity::SetActionDuringRun folded over the list of actions
recorded while one poll of the promise body ran (inline Wakeup, inline
Cancel, ForceImmediateRepoll each contribute one action). -/
def SetActionDuringRunAll (adr : ActionDuringRun)
    (acts : List ActionDuringRun) : ActionDuringRun :=
  List.foldl adrMax adr acts

/-- One poll of the black-box promise: its result, together with the actions
the promise body records via SetActionDuringRun during that poll. -/
structure PollBehavior (R : Type) where
  poll : Poll R
  acts : List ActionDuringRun
deriving DecidableEq

/-- Post-state of PromiseActivity::StepLoop: the optional final result (empty
means the activity went Idle), the done flag after the loop, the remaining
value of action_during_run_, and the promise polls that were never reached. -/
structure StepLoopResult (R : Type) where
  result : Option (Outcome R)
  done : Bool
  actionDuringRun : ActionDuringRun
  behavior : List (PollBehavior R)
deriving DecidableEq

/-- PromiseActivity::StepLoop: repeatedly poll the promise; on Ready call
MarkDone and return the converted value; on Pending sample-and-clear
action_during_run_ (GotActionDuringRun): kNone returns empty, kWakeup
iterates the loop, kCancel calls MarkDone and returns CancelledError.
The value none models a run for which the supplied behavior list does not
specify the next poll. -/
def StepLoop {R : Type} : ActionDuringRun → List (PollBehavior R) →
    Option (StepLoopResult R)
  | _, [] => none
  | adr, ⟨Poll.ready x, acts⟩ :: rest =>
      some ⟨some (IntoStatus x), true, SetActionDuringRunAll adr acts, rest⟩
  | adr, ⟨Poll.pending, acts⟩ :: rest =>
      match SetActionDuringRunAll adr acts with
      | ActionDuringRun.kNone =>
          some ⟨none, false, ActionDuringRun.kNone, rest⟩
      | ActionDuringRun.kWakeup => StepLoop ActionDuringRun.kNone rest
      | ActionDuringRun.kCancel =>
          some ⟨some Outcome.cancelledError, true, ActionDuringRun.kNone, rest⟩

/-- Observable state of one PromiseActivity: done_, action_during_run_,
wakeup_scheduled_, a count of ScheduleWakeup handoffs not yet run (ghost
bookkeeping for the scheduler contract), the number of on_done invocations so
far, and the behavior of the promise polls not yet performed. -/
structure ActState (R : Type) where
  done : Bool
  actionDuringRun : ActionDuringRun
  wakeupScheduled : Bool
  scheduledOutstanding : Nat
  onDoneCalls : Nat
  behavior : List (PollBehavior R)
deriving DecidableEq

namespace ActState

/-- PromiseActivity::Step: under the mutex, return early when done_ (spurious
wakeups are tolerated); otherwise RunStep runs StepLoop and on_done is
invoked outside the lock exactly when a final result was produced. -/
def Step {R : Type} (s : ActState R) : Option (ActState R) :=
  if s.done then some s
  else
    (StepLoop s.actionDuringRun s.behavior).map fun r =>
      { s with
        done := r.done
        actionDuringRun := r.actionDuringRun
        behavior := r.behavior
        onDoneCalls := s.onDoneCalls + (if r.result.isSome then 1 else 0) }

/-- PromiseActivity::Cancel on the not-current path: snapshot done_ under the
mutex, MarkDone when not yet done, and invoke on_done with CancelledError
exactly when the activity was not previously done. -/
def Cancel {R : Type} (s : ActState R) : ActState R :=
  if s.done then s
  else { s with done := true, onDoneCalls := s.onDoneCalls + 1 }

/-- PromiseActivity::Wakeup on the off-thread path: acq_rel exchange of
wakeup_scheduled_ to true; only the false-to-true transition hands the
activity to the WakeupScheduler (counted in scheduledOutstanding), otherwise
only WakeupComplete runs and the state is unchanged. -/
def Wakeup {R : Type} (s : ActState R) : ActState R :=
  if s.wakeupScheduled then s
  else
    { s with
      wakeupScheduled := true
      scheduledOutstanding := s.scheduledOutstanding + 1 }

/-- PromiseActivity::RunScheduledWakeup: assert that the acq_rel exchange of
wakeup_scheduled_ back to false returned true, then Step.  The value none
models a call the scheduler contract forbids (no wakeup was scheduled). -/
def RunScheduledWakeup {R : Type} (s : ActState R) : Option (ActState R) :=
  if s.wakeupScheduled then
    Step
      { s with
        wakeupScheduled := false
        scheduledOutstanding := s.scheduledOutstanding - 1 }
  else none

end ActState

/-- External calls that can reach a PromiseActivity after construction. -/
inductive Op where
  | step
  | wakeup
  | runScheduledWakeup
  | cancel
deriving DecidableEq

/-- Apply one external call; none marks an execution the model does not
specify (promise behavior exhausted, or RunScheduledWakeup called with no
wakeup scheduled). -/
def applyOp {R : Type} (s : ActState R) : Op → Option (ActState R)
  | Op.step => s.Step
  | Op.wakeup => some s.Wakeup
  | Op.runScheduledWakeup => s.RunScheduledWakeup
  | Op.cancel => some s.Cancel

/-- Run a sequence of external calls. -/
def runOps {R : Type} : ActState R → List Op → Option (ActState R)
  | s, [] => some s
  | s, op :: ops =>
      match applyOp s op with
      | none => none
      | some s2 => runOps s2 ops

/-- PromiseActivity constructor: construct the promise from the factory under
the lock, run StepLoop, and invoke on_done when the initial poll already
produced a final result. -/
def construct {R : Type} (behavior : List (PollBehavior R)) :
    Option (ActState R) :=
  (StepLoop ActionDuringRun.kNone behavior).map fun r =>
    ⟨r.done, r.actionDuringRun, false, 0,
      if r.result.isSome then 1 else 0, r.behavior⟩

/-- A complete execution: construction with its initial poll, then any
sequence of external calls. -/
def runActivity {R : Type} (behavior : List (PollBehavior R))
    (ops : List Op) : Option (ActState R) :=
  Option.bind (construct behavior) fun s => runOps s ops

/-- The assertion GPR_ASSERT(done_) in the PromiseActivity destructor. -/
def destructorAssertHolds {R : Type} (s : ActState R) : Bool := s.done

/-- A Wakeable pointer value: the NoDestructSingleton unwakeable sentinel or
the address of a real Wakeable. -/
inductive WPtr where
  | unwakeable
  | ptr (addr : Nat)
deriving DecidableEq

/-- Wakeup and Drop invocations delivered to real Wakeables.  The unwakeable
sentinel overrides both virtual methods with empty bodies, so dispatch to it
produces no event. -/
inductive WEvent where
  | wakeupEv (p : WPtr)
  | dropEv (p : WPtr)
deriving DecidableEq

/-- Virtual dispatch of Wakeable::Wakeup: Unwakeable::Wakeup is a no-op. -/
def dispatchWakeup : WPtr → List WEvent
  | WPtr.unwakeable => []
  | p => [WEvent.wakeupEv p]

/-- Virtual dispatch of Wakeable::Drop: Unwakeable::Drop is a no-op. -/
def dispatchDrop : WPtr → List WEvent
  | WPtr.unwakeable => []
  | p => [WEvent.dropEv p]

/-- Waker: an owning reference to one Wakeable pointer. -/
structure Waker where
  wakeable_ : WPtr
deriving DecidableEq

namespace Waker

/-- The Waker default constructor delegates to Waker(unwakeable()). -/
def defaultCtor : Waker := ⟨WPtr.unwakeable⟩

/-- Waker::Take: std::exchange of the held pointer with the unwakeable
sentinel; returns the taken pointer and the post-state of the Waker. -/
def Take (w : Waker) : WPtr × Waker := (w.wakeable_, ⟨WPtr.unwakeable⟩)

/-- Waker move construction, initializing from other.Take(); returns the new
Waker and the moved-from Waker. -/
def moveCtor (other : Waker) : Waker × Waker :=
  (⟨(Take other).1⟩, (Take other).2)

/-- Waker move assignment: std::swap of the two held pointers; returns the
post-state of the assigned-to Waker and of the moved-from Waker. -/
def moveAssign (target other : Waker) : Waker × Waker :=
  (⟨other.wakeable_⟩, ⟨target.wakeable_⟩)

/-- Waker::Wakeup: Take() and then virtual Wakeup on the taken pointer. -/
def Wakeup (w : Waker) : Waker × List WEvent :=
  ((Take w).2, dispatchWakeup (Take w).1)

/-- Waker destructor: virtual Drop on the held pointer. -/
def destructor (w : Waker) : List WEvent := dispatchDrop w.wakeable_

/-- Waker::operator==: identity of the held Wakeable pointers. -/
def eqOp (a b : Waker) : Bool := a.wakeable_ == b.wakeable_

/-- AbslHashValue for Waker: the hash state absorbs exactly the held
pointer, for any hash function on pointers. -/
def hashWith (h : WPtr → Nat) (w : Waker) : Nat := h w.wakeable_

end Waker

/-- AtomicWaker: an atomic cell holding one Wakeable pointer. -/
structure AtomicWaker where
  wakeable_ : WPtr
deriving DecidableEq

namespace AtomicWaker

/-- AtomicWaker::Set: acq_rel exchange of the cell with the Waker's taken
target, then virtual Wakeup on the previously stored pointer.  Returns the
new cell, the consumed Waker, and the events delivered. -/
def Set (a : AtomicWaker) (waker : Waker) : AtomicWaker × Waker × List WEvent :=
  (⟨(Waker.Take waker).1⟩, (Waker.Take waker).2, dispatchWakeup a.wakeable_)

end AtomicWaker

/-- Activity::ScopedActivity: saves the prior g_current_activity_ in
prior_activity_. -/
structure ScopedActivity where
  prior_activity_ : Option Nat
deriving DecidableEq

/-- ScopedActivity constructor: save the prior thread-local
g_current_activity_ and install the given activity pointer; returns the
scope object and the new g_current_activity_. -/
def ScopedActivity.enter (g : Option Nat) (activity : Option Nat) :
    ScopedActivity × Option Nat :=
  (⟨g⟩, activity)

/-- ScopedActivity destructor: g_current_activity_ becomes the saved prior
value. -/
def ScopedActivity.exitScope (sc : ScopedActivity) : Option Nat :=
  sc.prior_activity_

/-- Repeated Waker::Wakeup calls on one Waker, collecting the events
delivered to the underlying Wakeables. -/
def runWakeups : Waker → Nat → Waker × List WEvent
  | w, 0 => (w, [])
  | w, n + 1 =>
      ((runWakeups (Waker.Wakeup w).1 n).1,
        (Waker.Wakeup w).2 ++ (runWakeups (Waker.Wakeup w).1 n).2)

/-- The state invariant maintained by every PromiseActivity execution:
on_done has been invoked exactly once when done_ is set and never before,
and a deferred wakeup is outstanding exactly when wakeup_scheduled_. -/
def Inv {R : Type} (s : ActState R) : Prop :=
  s.onDoneCalls = (if s.done then 1 else 0) ∧
  s.scheduledOutstanding = (if s.wakeupScheduled then 1 else 0)

/-- StepLoop produces a final result exactly when it marks the activity
done: MarkDone accompanies both the Ready return and the Cancel return,
while the empty return leaves the activity alive. -/
theorem StepLoop_result_done {R : Type} :
    ∀ (pbs : List (PollBehavior R)) (adr : ActionDuringRun)
      (r : StepLoopResult R),
      StepLoop adr pbs = some r → r.result.isSome = r.done := by
  intro pbs
  induction pbs with
  | nil => intro adr r h; simp [StepLoop] at h
  | cons pb rest ih =>
    intro adr r h
    obtain ⟨p, acts⟩ := pb
    cases p with
    | ready x =>
      simp only [StepLoop] at h
      obtain ⟨rfl⟩ := h
      rfl
    | pending =>
      simp only [StepLoop] at h
      cases hf : SetActionDuringRunAll adr acts <;> rw [hf] at h
      · obtain ⟨rfl⟩ := h
        rfl
      · exact ih ActionDuringRun.kNone r h
      · obtain ⟨rfl⟩ := h
        rfl

theorem adrMax_cancel_left (b : ActionDuringRun) :
    adrMax ActionDuringRun.kCancel b = ActionDuringRun.kCancel := by
  cases b <;> rfl

/-- Folding SetActionDuringRun from a recorded Cancel stays Cancel. -/
theorem foldl_adrMax_cancel (acts : List ActionDuringRun) :
    List.foldl adrMax ActionDuringRun.kCancel acts = ActionDuringRun.kCancel := by
  induction acts with
  | nil => rfl
  | cons a rest ih => rw [List.foldl_cons, adrMax_cancel_left]; exact ih

/-- If a Cancel is among the actions recorded during one poll, the combined
action sampled afterwards is Cancel, whatever the order of recording. -/
theorem SetActionDuringRunAll_cancel {adr : ActionDuringRun}
    {acts : List ActionDuringRun}
    (h : ActionDuringRun.kCancel ∈ acts) :
    SetActionDuringRunAll adr acts = ActionDuringRun.kCancel := by
  induction acts generalizing adr with
  | nil => cases h
  | cons a rest ih =>
    rcases List.mem_cons.mp h with ha | ha
    · subst ha
      show List.foldl adrMax (adrMax adr ActionDuringRun.kCancel) rest = _
      have : adrMax adr ActionDuringRun.kCancel = ActionDuringRun.kCancel := by
        cases adr <;> rfl
      rw [this]
      exact foldl_adrMax_cancel rest
    · exact ih ha

theorem Step_of_done {R : Type} (s : ActState R) (hd : s.done = true) :
    s.Step = some s := by
  simp [ActState.Step, hd]

theorem Cancel_done {R : Type} (s : ActState R) :
    (s.Cancel).done = true := by
  by_cases hd : s.done <;> simp [ActState.Cancel, hd]

theorem Wakeup_done {R : Type} (s : ActState R) :
    (s.Wakeup).done = s.done := by
  by_cases hw : s.wakeupScheduled <;> simp [ActState.Wakeup, hw]

theorem Step_inv {R : Type} {s s' : ActState R} (hs : Inv s)
    (h : s.Step = some s') : Inv s' := by
  unfold ActState.Step at h
  by_cases hd : s.done
  · rw [if_pos hd] at h
    obtain ⟨rfl⟩ := h
    exact hs
  · rw [if_neg hd] at h
    rw [Option.map_eq_some'] at h
    obtain ⟨r, hr, rfl⟩ := h
    have hrd := StepLoop_result_done _ _ _ hr
    refine ⟨?_, hs.2⟩
    have h0 : s.onDoneCalls = 0 := by
      simpa [hd] using hs.1
    simp only [h0, hrd]
    cases r.done <;> simp

theorem Step_done_mono {R : Type} {s s' : ActState R} (hd : s.done = true)
    (h : s.Step = some s') : s'.done = true := by
  rw [Step_of_done s hd] at h
  obtain ⟨rfl⟩ := h
  exact hd

theorem construct_inv {R : Type} {behavior : List (PollBehavior R)}
    {s : ActState R} (h : construct behavior = some s) : Inv s := by
  unfold construct at h
  rw [Option.map_eq_some'] at h
  obtain ⟨r, hr, rfl⟩ := h
  have hrd := StepLoop_result_done _ _ _ hr
  refine ⟨?_, rfl⟩
  simp only [hrd]

theorem applyOp_inv {R : Type} {s s' : ActState R} {op : Op} (hs : Inv s)
    (h : applyOp s op = some s') : Inv s' := by
  cases op with
  | step => exact Step_inv hs h
  | wakeup =>
    obtain ⟨rfl⟩ := h
    by_cases hw : s.wakeupScheduled
    · simpa [ActState.Wakeup, hw] using hs
    · have h2 : s.scheduledOutstanding = 0 := by
        simpa [hw] using hs.2
      refine ⟨?_, ?_⟩ <;> simp [ActState.Wakeup, hw, hs.1, h2]
  | runScheduledWakeup =>
    replace h : s.RunScheduledWakeup = some s' := h
    unfold ActState.RunScheduledWakeup at h
    by_cases hw : s.wakeupScheduled
    · rw [if_pos hw] at h
      have h1 : s.scheduledOutstanding = 1 := by
        simpa [hw] using hs.2
      refine Step_inv ?_ h
      exact ⟨hs.1, by simp [h1]⟩
    · rw [if_neg hw] at h
      cases h
  | cancel =>
    obtain ⟨rfl⟩ := h
    by_cases hd : s.done
    · simpa [ActState.Cancel, hd] using hs
    · have h0 : s.onDoneCalls = 0 := by
        simpa [hd] using hs.1
      refine ⟨?_, ?_⟩ <;> simp [ActState.Cancel, hd, h0, hs.2]

theorem applyOp_done_mono {R : Type} {s s' : ActState R} {op : Op}
    (hd : s.done = true) (h : applyOp s op = some s') : s'.done = true := by
  cases op with
  | step => exact Step_done_mono hd h
  | wakeup =>
    obtain ⟨rfl⟩ := h
    rw [Wakeup_done]; exact hd
  | runScheduledWakeup =>
    replace h : s.RunScheduledWakeup = some s' := h
    unfold ActState.RunScheduledWakeup at h
    by_cases hw : s.wakeupScheduled
    · rw [if_pos hw] at h
      refine Step_done_mono ?_ h
      exact hd
    · rw [if_neg hw] at h
      cases h
  | cancel =>
    obtain ⟨rfl⟩ := h
    exact Cancel_done s

theorem runOps_inv {R : Type} {s s' : ActState R} {ops : List Op}
    (hs : Inv s) (h : runOps s ops = some s') : Inv s' := by
  induction ops generalizing s with
  | nil =>
    obtain ⟨rfl⟩ := h
    exact hs
  | cons op rest ih =>
    unfold runOps at h
    cases ha : applyOp s op <;> rw [ha] at h
    · cases h
    · exact ih (applyOp_inv hs ha) h

theorem runOps_done_mono {R : Type} {s s' : ActState R} {ops : List Op}
    (hd : s.done = true) (h : runOps s ops = some s') : s'.done = true := by
  induction ops generalizing s with
  | nil =>
    obtain ⟨rfl⟩ := h
    exact hd
  | cons op rest ih =>
    unfold runOps at h
    cases ha : applyOp s op <;> rw [ha] at h
    · cases h
    · exact ih (applyOp_done_mono hd ha) h

theorem runOps_cancel_done {R : Type} {s s' : ActState R} {ops : List Op}
    (h : runOps s ops = some s') (hc : Op.cancel ∈ ops) : s'.done = true := by
  induction ops generalizing s with
  | nil => cases hc
  | cons op rest ih =>
    unfold runOps at h
    cases ha : applyOp s op <;> rw [ha] at h
    · cases h
    · rcases List.mem_cons.mp hc with hop | hop
      · subst hop
        have hdone : (s.Cancel).done = true := Cancel_done s
        obtain ⟨rfl⟩ := ha
        exact runOps_done_mono hdone h
      · exact ih h hop

/-- A Waker already holding the sentinel delivers no events however often it
is woken, and still holds the sentinel. -/
theorem runWakeups_unwakeable (n : Nat) :
    runWakeups ⟨WPtr.unwakeable⟩ n = (⟨WPtr.unwakeable⟩, []) := by
  induction n with
  | zero => rfl
  | succ m ih =>
    simp [runWakeups, Waker.Wakeup, Waker.Take, dispatchWakeup, ih]

/-- C1: over any execution of a PromiseActivity — construction with its
initial poll followed by any sequence of Wakeup, RunScheduledWakeup, Step and
Cancel calls — the on_done callback has been invoked exactly once when done_
is set and never before (so exactly once over a lifetime whose Orphan runs
Cancel); once done_ is set, Step returns early without polling the promise
or invoking the callback; and Cancel leaves a done activity untouched,
invoking the callback only when done_ was previously false. -/
theorem c1_completion_callback_once {R : Type}
    (behavior : List (PollBehavior R)) (ops : List Op) (s : ActState R)
    (h : runActivity behavior ops = some s) :
    s.onDoneCalls = (if s.done then 1 else 0) ∧
    (Op.cancel ∈ ops → s.onDoneCalls = 1) ∧
    (∀ t : ActState R, t.done = true → t.Step = some t) ∧
    (∀ t : ActState R, t.done = true → t.Cancel = t) := by
  unfold runActivity at h
  rw [Option.bind_eq_some] at h
  obtain ⟨s0, hc, hr⟩ := h
  have hinv := runOps_inv (construct_inv hc) hr
  refine ⟨hinv.1, ?_, ?_, ?_⟩
  · intro hm
    have hd := runOps_cancel_done hr hm
    simpa [hd] using hinv.1
  · intro t ht
    exact Step_of_done t ht
  · intro t ht
    simp [ActState.Cancel, ht]

/-- C1 witness: a concrete activity whose initial poll is Pending and whose
lifetime ends in Cancel invokes on_done exactly once. -/
theorem c1_witness :
    runActivity [PollBehavior.mk (Poll.pending : Poll Nat) []] [Op.cancel] =
      some (ActState.mk true ActionDuringRun.kNone false 0 1 []) ∧
    (ActState.mk true ActionDuringRun.kNone false 0 1
      ([] : List (PollBehavior Nat))).onDoneCalls = 1 :=
  ⟨rfl,
    (c1_completion_callback_once [PollBehavior.mk (Poll.pending : Poll Nat) []]
      [Op.cancel] (ActState.mk true ActionDuringRun.kNone false 0 1 [])
      rfl).2.1 (by decide)⟩

/-- C2: StepLoop polls the promise; on Ready it marks done and returns the
converted final value; on Pending it samples-and-clears action_during_run
and returns empty on None, iterates (polling again) on Wakeup, and marks
done returning CancelledError on Cancel; a final result is produced exactly
when the loop marks the activity done. -/
theorem c2_StepLoop_cases (R : Type) :
    (∀ (adr : ActionDuringRun) (x : R) (acts : List ActionDuringRun)
        (rest : List (PollBehavior R)),
      StepLoop adr (⟨Poll.ready x, acts⟩ :: rest) =
        some ⟨some (IntoStatus x), true, SetActionDuringRunAll adr acts, rest⟩) ∧
    (∀ (adr : ActionDuringRun) (acts : List ActionDuringRun)
        (rest : List (PollBehavior R)),
      SetActionDuringRunAll adr acts = ActionDuringRun.kNone →
      StepLoop adr (⟨Poll.pending, acts⟩ :: rest) =
        some ⟨none, false, ActionDuringRun.kNone, rest⟩) ∧
    (∀ (adr : ActionDuringRun) (acts : List ActionDuringRun)
        (rest : List (PollBehavior R)),
      SetActionDuringRunAll adr acts = ActionDuringRun.kWakeup →
      StepLoop adr (⟨Poll.pending, acts⟩ :: rest) =
        StepLoop ActionDuringRun.kNone rest) ∧
    (∀ (adr : ActionDuringRun) (acts : List ActionDuringRun)
        (rest : List (PollBehavior R)),
      SetActionDuringRunAll adr acts = ActionDuringRun.kCancel →
      StepLoop adr (⟨Poll.pending, acts⟩ :: rest) =
        some ⟨some Outcome.cancelledError, true, ActionDuringRun.kNone, rest⟩) ∧
    (∀ (adr : ActionDuringRun) (pbs : List (PollBehavior R))
        (r : StepLoopResult R),
      StepLoop adr pbs = some r → r.result.isSome = r.done) := by
  refine ⟨?_, ?_, ?_, ?_, ?_⟩
  · intro adr x acts rest
    rfl
  · intro adr acts rest hf
    simp [StepLoop, hf]
  · intro adr acts rest hf
    simp [StepLoop, hf]
  · intro adr acts rest hf
    simp [StepLoop, hf]
  · intro adr pbs r hsl
    exact StepLoop_result_done pbs adr r hsl

/-- C2 witness: one Pending poll with no recorded action makes StepLoop
return empty with the activity still not done. -/
theorem c2_witness :
    SetActionDuringRunAll ActionDuringRun.kNone [] = ActionDuringRun.kNone ∧
    StepLoop ActionDuringRun.kNone
        [PollBehavior.mk (Poll.pending : Poll Nat) []] =
      some (StepLoopResult.mk none false ActionDuringRun.kNone []) :=
  ⟨rfl, (c2_StepLoop_cases Nat).2.1 ActionDuringRun.kNone [] [] rfl⟩

/-- C3: SetActionDuringRun combines actions by maximum under the enumerator
order kNone < kWakeup < kCancel, so when a Cancel is recorded during one
poll — in whatever order relative to any Wakeups — the next sample yields
Cancel and StepLoop terminates with CancelledError without polling the
promise again (the remaining polls are returned untouched). -/
theorem c3_cancel_dominates (R : Type) :
    (∀ a b : ActionDuringRun,
      (adrMax a b).toNat = max a.toNat b.toNat) ∧
    (∀ (adr : ActionDuringRun) (acts : List ActionDuringRun)
        (rest : List (PollBehavior R)),
      ActionDuringRun.kCancel ∈ acts →
      StepLoop adr (⟨Poll.pending, acts⟩ :: rest) =
        some ⟨some Outcome.cancelledError, true, ActionDuringRun.kNone, rest⟩) := by
  constructor
  · intro a b
    cases a <;> cases b <;> rfl
  · intro adr acts rest hm
    simp [StepLoop, SetActionDuringRunAll_cancel hm]

/-- C3 witness: Wakeup then Cancel, and Cancel then Wakeup, recorded during
a single Pending poll both terminate StepLoop with CancelledError. -/
theorem c3_witness :
    ActionDuringRun.kCancel ∈
      [ActionDuringRun.kWakeup, ActionDuringRun.kCancel] ∧
    StepLoop ActionDuringRun.kNone
        [PollBehavior.mk (Poll.pending : Poll Nat)
          [ActionDuringRun.kWakeup, ActionDuringRun.kCancel]] =
      some (StepLoopResult.mk (some Outcome.cancelledError) true
        ActionDuringRun.kNone []) ∧
    StepLoop ActionDuringRun.kNone
        [PollBehavior.mk (Poll.pending : Poll Nat)
          [ActionDuringRun.kCancel, ActionDuringRun.kWakeup]] =
      some (StepLoopResult.mk (some Outcome.cancelledError) true
        ActionDuringRun.kNone []) :=
  ⟨by decide,
    (c3_cancel_dominates Nat).2 ActionDuringRun.kNone
      [ActionDuringRun.kWakeup, ActionDuringRun.kCancel] [] (by decide),
    (c3_cancel_dominates Nat).2 ActionDuringRun.kNone
      [ActionDuringRun.kCancel, ActionDuringRun.kWakeup] [] (by decide)⟩

/-- C4: in every execution, wakeup_scheduled is true iff exactly one
ScheduleWakeup handoff is outstanding (and never more than one); an
off-thread Wakeup whose exchange finds the flag already true changes
nothing beyond WakeupComplete, a false-to-true transition records exactly
one handoff, and RunScheduledWakeup clears the flag back to false before
stepping. -/
theorem c4_wakeup_scheduled_gate {R : Type}
    (behavior : List (PollBehavior R)) (ops : List Op) (s : ActState R)
    (h : runActivity behavior ops = some s) :
    (s.wakeupScheduled = true ↔ s.scheduledOutstanding = 1) ∧
    s.scheduledOutstanding ≤ 1 ∧
    (∀ t : ActState R, t.wakeupScheduled = true → t.Wakeup = t) ∧
    (∀ t : ActState R, t.wakeupScheduled = false →
      t.Wakeup =
        { t with
          wakeupScheduled := true
          scheduledOutstanding := t.scheduledOutstanding + 1 }) ∧
    (∀ t : ActState R, t.wakeupScheduled = true →
      t.RunScheduledWakeup =
        ActState.Step
          { t with
            wakeupScheduled := false
            scheduledOutstanding := t.scheduledOutstanding - 1 }) := by
  unfold runActivity at h
  rw [Option.bind_eq_some] at h
  obtain ⟨s0, hc, hr⟩ := h
  have h2 := (runOps_inv (construct_inv hc) hr).2
  refine ⟨?_, ?_, ?_, ?_, ?_⟩
  · constructor
    · intro hw
      simpa [hw] using h2
    · intro ho
      by_cases hw : s.wakeupScheduled
      · exact hw
      · simp [hw] at h2
        omega
  · by_cases hw : s.wakeupScheduled <;> simp [hw] at h2 <;> omega
  · intro t ht
    simp [ActState.Wakeup, ht]
  · intro t ht
    simp [ActState.Wakeup, ht]
  · intro t ht
    simp [ActState.RunScheduledWakeup, ht]

/-- C4 witness: a concrete off-thread Wakeup on an idle activity leaves the
flag set with exactly one outstanding handoff. -/
theorem c4_witness :
    runActivity [PollBehavior.mk (Poll.pending : Poll Nat) []] [Op.wakeup] =
      some (ActState.mk false ActionDuringRun.kNone true 1 0 []) ∧
    ((ActState.mk false ActionDuringRun.kNone true 1 0
        ([] : List (PollBehavior Nat))).wakeupScheduled = true ↔
      (ActState.mk false ActionDuringRun.kNone true 1 0
        ([] : List (PollBehavior Nat))).scheduledOutstanding = 1) :=
  ⟨rfl,
    (c4_wakeup_scheduled_gate [PollBehavior.mk (Poll.pending : Poll Nat) []]
      [Op.wakeup] (ActState.mk false ActionDuringRun.kNone true 1 0 [])
      rfl).1⟩

/-- C5 counterexample: Waker move assignment is a swap, so after assigning
from a Waker holding ptr 2 into a Waker holding ptr 1, the moved-from Waker
holds ptr 1 — not the unwakeable sentinel the claim requires. -/
theorem c5_counterexample :
    (Waker.moveAssign (Waker.mk (WPtr.ptr 1))
        (Waker.mk (WPtr.ptr 2))).2.wakeable_ ≠ WPtr.unwakeable := by
  decide

/-- C5 amended: move construction transfers the held Wakeable and leaves the
moved-from Waker holding the unwakeable sentinel; move assignment transfers
the held Wakeable to the target but swaps, leaving the moved-from Waker
holding the target's previous Wakeable (the sentinel only when the target
held the sentinel). -/
theorem c5_move_semantics (t o : Waker) :
    (Waker.moveCtor o).1.wakeable_ = o.wakeable_ ∧
    (Waker.moveCtor o).2.wakeable_ = WPtr.unwakeable ∧
    (Waker.moveAssign t o).1.wakeable_ = o.wakeable_ ∧
    (Waker.moveAssign t o).2.wakeable_ = t.wakeable_ :=
  ⟨rfl, rfl, rfl, rfl⟩

/-- C6: AtomicWaker::Set exchanges the stored pointer for the Waker's taken
target (consuming the Waker down to the sentinel) and invokes Wakeup on the
previously stored Wakeable; in particular a real previously registered
Wakeable always receives its Wakeup event, so no registration is silently
lost. -/
theorem c6_Set_wakes_replaced (a : AtomicWaker) (w : Waker) (n : Nat) :
    (AtomicWaker.Set a w).1.wakeable_ = w.wakeable_ ∧
    (AtomicWaker.Set a w).2.1.wakeable_ = WPtr.unwakeable ∧
    (AtomicWaker.Set a w).2.2 = dispatchWakeup a.wakeable_ ∧
    (AtomicWaker.Set (AtomicWaker.mk (WPtr.ptr n)) w).2.2 =
      [WEvent.wakeupEv (WPtr.ptr n)] :=
  ⟨rfl, rfl, rfl, rfl⟩

/-- C7: the PromiseActivity destructor asserts done_; in every execution
whose call sequence contains the Cancel that Orphan performs before
releasing the primary reference, the final state satisfies the assertion,
and Cancel always leaves the activity done. -/
theorem c7_destructor_assert {R : Type}
    (behavior : List (PollBehavior R)) (ops : List Op) (s : ActState R)
    (h : runActivity behavior ops = some s) (hc : Op.cancel ∈ ops) :
    destructorAssertHolds s = true ∧
    (∀ t : ActState R, destructorAssertHolds t.Cancel = true) := by
  unfold runActivity at h
  rw [Option.bind_eq_some] at h
  obtain ⟨s0, hc0, hr⟩ := h
  exact ⟨runOps_cancel_done hr hc, fun t => Cancel_done t⟩

/-- C7 witness: a concrete activity cancelled after a Pending initial poll
satisfies the destructor assertion. -/
theorem c7_witness :
    runActivity
        [PollBehavior.mk (Poll.pending : Poll Nat) [],
          PollBehavior.mk Poll.pending []] [Op.cancel] =
      some (ActState.mk true ActionDuringRun.kNone false 0 1
        [PollBehavior.mk Poll.pending []]) ∧
    destructorAssertHolds
      (ActState.mk true ActionDuringRun.kNone false 0 1
        [PollBehavior.mk (Poll.pending : Poll Nat) []]) = true :=
  ⟨rfl,
    (c7_destructor_assert
      [PollBehavior.mk (Poll.pending : Poll Nat) [],
        PollBehavior.mk Poll.pending []] [Op.cancel]
      (ActState.mk true ActionDuringRun.kNone false 0 1
        [PollBehavior.mk Poll.pending []])
      rfl (by decide)).1⟩

/-- C8: ScopedActivity saves the prior thread-local current activity and
installs the new one; destruction restores the prior value, so a complete
construct/destruct pair leaves g_current_activity_ unchanged and nested
scopes restore in stack order. -/
theorem c8_ScopedActivity_restores (p a b : Option Nat) :
    (ScopedActivity.enter p a).2 = a ∧
    ((ScopedActivity.enter p a).1).exitScope = p ∧
    (ScopedActivity.enter ((ScopedActivity.enter p a).2) b).2 = b ∧
    ((ScopedActivity.enter ((ScopedActivity.enter p a).2) b).1).exitScope = a ∧
    ((ScopedActivity.enter p a).1).exitScope = p :=
  ⟨rfl, rfl, rfl, rfl, rfl⟩

/-- C9: Waker::Wakeup leaves the Waker holding the unwakeable sentinel, so
any later Wakeup calls or the destructor dispatch only to the sentinel's
no-op overrides: the events of any number of Wakeup calls followed by
destruction contain at most one Wakeup and at most one Drop for the
originally held Wakeable, and after at least one Wakeup the whole trace is
exactly the single dispatch to the original target. -/
theorem c9_waker_single_shot (p : WPtr) (n : Nat) :
    ((Waker.mk p).Wakeup).1 = Waker.defaultCtor ∧
    (∀ m, (runWakeups (Waker.mk p) (m + 1)).2 ++
        Waker.destructor (runWakeups (Waker.mk p) (m + 1)).1 =
      dispatchWakeup p) ∧
    ((runWakeups (Waker.mk p) n).2 ++
        Waker.destructor (runWakeups (Waker.mk p) n).1).count
      (WEvent.wakeupEv p) ≤ 1 ∧
    ((runWakeups (Waker.mk p) n).2 ++
        Waker.destructor (runWakeups (Waker.mk p) n).1).count
      (WEvent.dropEv p) ≤ 1 := by
  have htrace : ∀ m, (runWakeups (Waker.mk p) (m + 1)).2 ++
      Waker.destructor (runWakeups (Waker.mk p) (m + 1)).1 =
      dispatchWakeup p := by
    intro m
    have h1 : (Waker.Wakeup (Waker.mk p)).1 = ⟨WPtr.unwakeable⟩ := rfl
    simp [runWakeups, h1, runWakeups_unwakeable, Waker.destructor,
      dispatchDrop, Waker.Wakeup, Waker.Take]
  refine ⟨rfl, htrace, ?_, ?_⟩
  · cases n with
    | zero =>
      cases p <;>
        simp [runWakeups, Waker.destructor, dispatchDrop, List.count_cons]
    | succ m =>
      rw [htrace m]
      cases p <;> simp [dispatchWakeup, List.count_cons]
  · cases n with
    | zero =>
      cases p <;>
        simp [runWakeups, Waker.destructor, dispatchDrop, List.count_cons]
    | succ m =>
      rw [htrace m]
      cases p <;> simp [dispatchWakeup, List.count_cons]

/-- C10 counterexample: a Waker moved from by move assignment (a swap) can
hold a real Wakeable, so it does not hold the unwakeable singleton and does
not compare equal to a default-constructed Waker. -/
theorem c10_counterexample :
    (Waker.moveAssign (Waker.mk (WPtr.ptr 5))
        (Waker.mk (WPtr.ptr 6))).2.wakeable_ ≠ WPtr.unwakeable ∧
    Waker.eqOp
      (Waker.moveAssign (Waker.mk (WPtr.ptr 5)) (Waker.mk (WPtr.ptr 6))).2
      Waker.defaultCtor = false := by
  decide

/-- C10 amended: Waker equality and hashing depend only on the held Wakeable
pointer; default-constructed, woken, and moved-from-by-move-construction
Wakers all hold the unwakeable singleton and therefore any two of them
compare equal, even when they previously targeted different activities —
whereas a Waker moved from by move assignment holds the assigned-to Waker's
previous pointer instead. -/
theorem c10_equality_by_pointer (p q : WPtr) (h : WPtr → Nat)
    (w1 w2 : Waker) :
    Waker.eqOp w1 w2 = (w1.wakeable_ == w2.wakeable_) ∧
    Waker.hashWith h w1 = h w1.wakeable_ ∧
    Waker.defaultCtor.wakeable_ = WPtr.unwakeable ∧
    ((Waker.mk p).Wakeup).1.wakeable_ = WPtr.unwakeable ∧
    (Waker.moveCtor (Waker.mk p)).2.wakeable_ = WPtr.unwakeable ∧
    Waker.eqOp ((Waker.mk p).Wakeup).1 ((Waker.mk q).Wakeup).1 = true ∧
    Waker.eqOp ((Waker.mk p).Wakeup).1 Waker.defaultCtor = true ∧
    Waker.eqOp (Waker.moveCtor (Waker.mk p)).2 ((Waker.mk q).Wakeup).1 = true ∧
    Waker.moveAssign w1 w2 =
      (Waker.mk w2.wakeable_, Waker.mk w1.wakeable_) :=
  ⟨rfl, rfl, rfl, rfl, rfl, rfl, rfl, rfl, rfl⟩

end GrpcCore
